import Mathlib

/-!
Shallow embedding of the referral-reward and balance-reconciliation engine of
the watch-earn backend.  Records mirror the Prisma rows; every route handler
or library function that the claims touch is translated into a pure function
over an explicit database value `Db`.  Monetary amounts are modelled as exact
integers (`Int`); strings that the source manipulates are modelled as `List
Char` so that suffix tests and concatenation match the JavaScript string
operations literally.  Each error-`throw` inside a Prisma transaction rolls
the transaction back, so a fallible operation returns `Except e (Db × α)`:
the error branch carries no database, meaning the store is left unchanged.
-/

namespace WatchEarn

/-- Status of a `ReferralReward` row: the source uses the string values
"pending", "paid" and "rejected". -/
inductive RewardStatus where
  | pending
  | paid
  | rejected
deriving DecidableEq, Repr

/-- Status of a `Deposit` row: "pending", "confirmed", "approved", "rejected". -/
inductive DepositStatus where
  | pending
  | confirmed
  | approved
  | rejected
deriving DecidableEq, Repr

/-- Caller role as exposed by the auth middleware. -/
inductive Role where
  | admin
  | user
deriving DecidableEq, Repr

/-- The `User` row (the fields the core logic touches). -/
structure User where
  id : Nat
  referralCode : Option (List Char) := none
  referredById : Option Nat := none
  referredByCode : Option (List Char) := none
  referralCount : Nat := 0
  balance : Int := 0
  totalEarned : Int := 0
deriving DecidableEq, Repr

/-- The `Deposit` row. -/
structure Deposit where
  id : Nat
  userId : Nat
  amount : Int
  currency : List Char := []
  transactionHash : List Char := []
  status : DepositStatus
deriving DecidableEq, Repr

/-- The `UserPlanProgress` row. -/
structure UserPlanProgress where
  id : Nat
  userId : Nat
  planAmount : Int
  profit : Int := 0
  roundCount : Nat := 0
  canWithdraw : Bool := false
deriving DecidableEq, Repr

/-- The `ReferralReward` row. -/
structure ReferralReward where
  id : Nat
  referrerId : Nat
  referredUserId : Nat
  amount : Int
  planAmount : Int
  planType : Option (List Char) := none
  status : RewardStatus
  paidAt : Option Nat := none
deriving DecidableEq, Repr

/-- The `Withdrawal` row. -/
structure Withdrawal where
  id : Nat
  userId : Nat
  amount : Int
  currency : List Char
  recipientAddress : List Char
  status : List Char
deriving DecidableEq, Repr

/-- The relational store.  `nextId` models the autoincrement id counter used
when new rows are created; list order models the id-ascending order in which
the queries of the source return rows. -/
structure Db where
  users : List User := []
  deposits : List Deposit := []
  progresses : List UserPlanProgress := []
  rewards : List ReferralReward := []
  withdrawals : List Withdrawal := []
  nextId : Nat := 1
deriving DecidableEq, Repr

/-- `findUnique`-style lookup by primary key. -/
def findById {α : Type} (getId : α → Nat) (i : Nat) (l : List α) : Option α :=
  l.find? fun x => getId x == i

/-- `update`-style mutation of the rows whose primary key matches. -/
def updateById {α : Type} (getId : α → Nat) (i : Nat) (f : α → α) (l : List α) :
    List α :=
  l.map fun x => if getId x == i then f x else x

/-- Balance of a user as read back from the store (0 when the row is absent,
matching `Number(user?.balance ?? 0)` in the handlers). -/
def userBalance (uid : Nat) (db : Db) : Int :=
  ((findById User.id uid db.users).map User.balance).getD 0

/-- `totalEarned` of a user as read back from the store. -/
def userTotalEarned (uid : Nat) (db : Db) : Int :=
  ((findById User.id uid db.users).map User.totalEarned).getD 0

/-- One user row after an atomic `balance`/`totalEarned` increment by `a`. -/
def addEarnings (a : Int) (u : User) : User :=
  { u with balance := u.balance + a, totalEarned := u.totalEarned + a }

/-- Atomic `balance`/`totalEarned` increment on one user row, the
`{ balance: { increment: a }, totalEarned: { increment: a } }` update. -/
def creditUser (uid : Nat) (a : Int) (db : Db) : Db :=
  { db with users := updateById User.id uid (addEarnings a) db.users }



/-! ## Balance reconciliation (GET /api/plan/all-progress, reconciling variant)

The handler marks a paid reward as already folded into `balance` by appending
the literal string " [credited]" to its `planType`. -/

/-- The marker suffix appended to `planType` when a paid reward has been
credited into `balance`. -/
def creditedSuffix : List Char := " [credited]".toList

/-- The default label used when `planType` is null:
`r.planType ?? 'Referral Bonus'`. -/
def defaultPlanType : List Char := "Referral Bonus".toList

/-- Whether a `planType` value carries the credited marker; a null `planType`
counts as not credited (the query's `OR` clause). -/
def isCredited : Option (List Char) → Bool
  | none => false
  | some s => creditedSuffix.isSuffixOf s

/-- The reconciliation query: this user's paid rewards as referrer whose
`planType` is null or does not end in " [credited]". -/
def uncreditedPaidFor (uid : Nat) (db : Db) : List ReferralReward :=
  db.rewards.filter fun r =>
    r.referrerId == uid && r.status == RewardStatus.paid && !(isCredited r.planType)

/-- Sum of the `amount` fields of a list of rewards. -/
def sumAmounts (rs : List ReferralReward) : Int :=
  (rs.map ReferralReward.amount).sum

/-- Append the credited marker to one reward's `planType`
(`planType: `${r.planType ?? 'Referral Bonus'} [credited]``). -/
def markCredited (r : ReferralReward) : ReferralReward :=
  { r with planType := some ((r.planType.getD defaultPlanType) ++ creditedSuffix) }

/-- The marking loop: append the credited marker to exactly the rewards the
reconciliation query found. -/
def reconcileMark (uid : Nat) (rs : List ReferralReward) : List ReferralReward :=
  rs.map fun r =>
    if r.referrerId == uid && r.status == RewardStatus.paid && !(isCredited r.planType)
    then markCredited r else r

/-- The reconciliation transaction of the reconciling all-progress variant:
find the uncredited paid rewards of the user as referrer, credit their sum to
`balance`/`totalEarned` (skipped when the sum is not positive, exactly as the
`if (totalToCredit > 0)` guard), then mark each found reward credited (the
credit step only touches the user row, so the rewards being marked are those
of the incoming store). -/
def reconcileRewards (uid : Nat) (db : Db) : Db :=
  if (uncreditedPaidFor uid db).isEmpty then db
  else
    { (if 0 < sumAmounts (uncreditedPaidFor uid db)
       then creditUser uid (sumAmounts (uncreditedPaidFor uid db)) db
       else db) with
      rewards := reconcileMark uid db.rewards }


/-! ## Library referral operations (src/lib/referral.ts) -/

/-- The fixed tier table `PLAN_REWARDS`, keyed by the integer plan amount; a
missing key yields 0 (`PLAN_REWARDS[planAmount.toString()] || 0`). -/
def PLAN_REWARDS (planAmount : Int) : Int :=
  if planAmount = 50 then 2
  else if planAmount = 100 then 4
  else if planAmount = 150 then 6
  else if planAmount = 250 then 10
  else if planAmount = 500 then 20
  else if planAmount = 1000 then 40
  else if planAmount = 1500 then 60
  else if planAmount = 2500 then 100
  else 0

/-- `referralCode.toUpperCase()`. -/
def upper (s : List Char) : List Char := s.map Char.toUpper

/-- User row after attribution (`referredByCode`/`referredById` set). -/
def setReferrer (c : List Char) (rid : Nat) (u : User) : User :=
  { u with referredByCode := some c, referredById := some rid }

/-- User row after `referralCount: { increment: 1 }`. -/
def bumpReferralCount (u : User) : User :=
  { u with referralCount := u.referralCount + 1 }

/-- `processReferral` (referral attribution): find a referrer whose
`referralCode` equals the uppercased supplied code, excluding the user itself
(no self-referral); when found, set `referredByCode`/`referredById` on the
user — unconditionally, with no check of the current value — and increment
the referrer's `referralCount`.  A missing or empty code, or an unknown code,
leaves the store untouched and returns no referrer. -/
def processReferral (uid : Nat) (code : Option (List Char)) (db : Db) :
    Db × Option Nat :=
  match code with
  | none => (db, none)
  | some c =>
    if c = [] then (db, none)
    else
      match db.users.find? (fun u =>
          u.referralCode == some (upper c) && !(u.id == uid)) with
      | none => (db, none)
      | some referrer =>
        let db1 := { db with
          users := updateById User.id uid (setReferrer (upper c) referrer.id) db.users }
        let db2 := { db1 with
          users := updateById User.id referrer.id bumpReferralCount db1.users }
        (db2, some referrer.id)

/-- The label given to a newly created reward:
`Referral Bonus ($X Plan)` for plan amount X. -/
def mkPlanTypeLabel (planAmount : Int) : List Char :=
  "Referral Bonus ($".toList ++ (toString planAmount).toList ++ " Plan)".toList

/-- `findFirst` on `UserPlanProgress` with `orderBy: { id: 'desc' }, take: 1`:
the user's row with the greatest id. -/
def latestPlanFor (uid : Nat) (db : Db) : Option UserPlanProgress :=
  (db.progresses.filter (fun p => p.userId == uid)).foldl
    (fun acc p =>
      match acc with
      | none => some p
      | some q => if q.id < p.id then some p else some q) none

/-- Errors thrown inside the `processReferralReward` transaction. -/
inductive ProcessError where
  | noApprovedDeposit
  | noPlanFound
  | invalidRewardAmount
deriving DecidableEq, Repr

/-- The value returned by a successful `processReferralReward` run. -/
structure ProcessResult where
  rewardAmount : Int
  rewardId : Nat
  referrerId : Nat
  referredUserId : Nat
  planAmount : Int
deriving DecidableEq, Repr

/-- `processReferralReward` (reward computation on deposit confirmation).
Returns `ok (db, none)` on the silent early exits (no referrer, referrer row
missing, or an existing **paid** reward for the (referrer, referred) pair —
the guard checks `status: 'paid'` only), an error when the transaction throws
(no approved deposit, no plan row, or a tier missing from `PLAN_REWARDS`),
and otherwise appends one new **pending** reward row. -/
def processReferralReward (uid : Nat) (db : Db) :
    Except ProcessError (Db × Option ProcessResult) :=
  match findById User.id uid db.users with
  | none => .ok (db, none)
  | some u =>
    match u.referredById with
    | none => .ok (db, none)
    | some rid =>
      match findById User.id rid db.users with
      | none => .ok (db, none)
      | some _ =>
        match db.rewards.find? (fun r =>
            r.referredUserId == uid && r.referrerId == rid
              && r.status == RewardStatus.paid) with
        | some _ => .ok (db, none)
        | none =>
          match db.deposits.find? (fun d =>
              d.userId == uid && d.status == DepositStatus.approved) with
          | none => .error .noApprovedDeposit
          | some _ =>
            match latestPlanFor uid db with
            | none => .error .noPlanFound
            | some plan =>
              let rewardAmount := PLAN_REWARDS plan.planAmount
              if rewardAmount ≤ 0 then .error .invalidRewardAmount
              else
                let newReward : ReferralReward :=
                  { id := db.nextId, referrerId := rid, referredUserId := uid,
                    amount := rewardAmount, planAmount := plan.planAmount,
                    planType := some (mkPlanTypeLabel plan.planAmount),
                    status := RewardStatus.pending, paidAt := none }
                let db1 : Db :=
                  { db with
                    rewards := db.rewards ++ [newReward]
                    nextId := db.nextId + 1 }
                let res : ProcessResult :=
                  { rewardAmount := rewardAmount, rewardId := db.nextId,
                    referrerId := rid, referredUserId := uid,
                    planAmount := plan.planAmount }
                .ok (db1, some res)

/-- The `planType` label that redirects the credit of an approval to the
referred user instead of the referrer. -/
def referredUserBonusLabel : List Char := "Referred User Bonus".toList

/-- A reward row after `status: 'paid', paidAt: new Date()`. -/
def markRewardPaid (now : Nat) (r : ReferralReward) : ReferralReward :=
  { r with status := RewardStatus.paid, paidAt := some now }

/-- Error thrown by the library `approveReferralReward`
("Invalid or already processed reward"). -/
inductive ApproveError where
  | invalidOrProcessed
deriving DecidableEq, Repr

/-- `approveReferralReward` (library version): load the reward by id; throw
when it is missing **or already paid** (a rejected reward passes the check);
credit the recipient — the referred user when `planType` is exactly
"Referred User Bonus", the referrer otherwise — and mark the reward paid. -/
def approveReferralReward (rewardId : Nat) (now : Nat) (db : Db) :
    Except ApproveError (Db × ReferralReward) :=
  match findById ReferralReward.id rewardId db.rewards with
  | none => .error .invalidOrProcessed
  | some reward =>
    if reward.status = RewardStatus.paid then .error .invalidOrProcessed
    else
      let userIdToCredit :=
        if reward.planType = some referredUserBonusLabel
        then reward.referredUserId else reward.referrerId
      let db1 := creditUser userIdToCredit reward.amount db
      let db2 := { db1 with
        rewards := updateById ReferralReward.id rewardId (markRewardPaid now) db1.rewards }
      .ok (db2, markRewardPaid now reward)

/-- Errors of the admin approval route (unnamed part_004). -/
inductive RouteError where
  | forbidden
  | missingRewardId
  | rewardNotPending
deriving DecidableEq, Repr

/-- The admin approval route handler: requires the `admin` role (403
otherwise), requires a reward id, loads the reward with
`where: { id, status: 'pending' }` (so a paid or rejected reward is not
found), marks it paid and credits the **referrer**. -/
def approveRewardRoute (role : Role) (rewardId : Nat) (now : Nat) (db : Db) :
    Except RouteError (Db × ReferralReward) :=
  if role ≠ Role.admin then .error .forbidden
  else if rewardId = 0 then .error .missingRewardId
  else
    match db.rewards.find? (fun r =>
        r.id == rewardId && r.status == RewardStatus.pending) with
    | none => .error .rewardNotPending
    | some reward =>
      let db1 := { db with
        rewards := updateById ReferralReward.id rewardId (markRewardPaid now) db.rewards }
      let db2 := creditUser reward.referrerId reward.amount db1
      .ok (db2, markRewardPaid now reward)


/-! ## Deposit confirmation (unnamed part_006) and its post-transaction
referral payout -/

/-- The post-transaction payout step of the deposit-confirmation handler:
when the user has a referrer, run `processReferralReward` and — when it
created a reward — immediately run the library `approveReferralReward` on it.
Both calls sit in a `try`/`catch`, so a failure keeps the store as it was at
that point. -/
def confirmDepositPayout (uid : Nat) (now : Nat) (db : Db) : Db :=
  match findById User.id uid db.users with
  | none => db
  | some u =>
    match u.referredById with
    | none => db
    | some _ =>
      match processReferralReward uid db with
      | .error _ => db
      | .ok (db1, none) => db1
      | .ok (db1, some res) =>
        match approveReferralReward res.rewardId now db1 with
        | .error _ => db1
        | .ok (db2, _) => db2

/-- Errors of the deposit-confirmation handler. -/
inductive ConfirmError where
  | missingFields
  | alreadyHasPlan
  | invalidPlan
  | pendingNotFound
  | amountMismatch
deriving DecidableEq, Repr

/-- The fixed plan tier set accepted by the deposit routes. -/
def allowedPlans : List Int := [50, 100, 150, 250, 500, 1000, 1500, 2500]

/-- `userPlanProgress.upsert` keyed on (userId, planAmount): `update: {}` when
the row exists, create with zero profit otherwise. -/
def upsertProgress (uid : Nat) (planAmount : Int) (db : Db) : Db :=
  match db.progresses.find? (fun p =>
      p.userId == uid && p.planAmount == planAmount) with
  | some _ => db
  | none =>
    { db with
      progresses := db.progresses ++
        [{ id := db.nextId, userId := uid, planAmount := planAmount }]
      nextId := db.nextId + 1 }

/-- A deposit row after `status: 'confirmed', confirmedAt: new Date()`. -/
def markDepositConfirmed (d : Deposit) : Deposit :=
  { d with status := DepositStatus.confirmed }

/-- The deposit-confirmation handler (unnamed part_006): validate the fields,
reject when the user already has a plan, reject when the amount is not one of
`allowedPlans` — all **before** any state change or reward logic — then, in a
transaction, confirm the matching pending deposit, credit the deposit amount
to `balance`/`totalEarned`, upsert the plan-progress row, and finally run the
referral payout step. -/
def confirmDeposit (uid : Nat) (txHash : List Char) (amount : Int)
    (cur : List Char) (now : Nat) (db : Db) : Except ConfirmError (Db × Deposit) :=
  if txHash = [] ∨ amount = 0 ∨ cur = [] then .error .missingFields
  else if (db.progresses.find? (fun p => p.userId == uid)).isSome then
    .error .alreadyHasPlan
  else if ¬ amount ∈ allowedPlans then .error .invalidPlan
  else
    match db.deposits.find? (fun d =>
        d.userId == uid && d.status == DepositStatus.pending
          && d.transactionHash == txHash) with
    | none => .error .pendingNotFound
    | some pending =>
      if ¬ (pending.amount = amount ∧ pending.currency = cur) then
        .error .amountMismatch
      else
        let db1 := { db with
          deposits := updateById Deposit.id pending.id markDepositConfirmed db.deposits }
        let db2 := creditUser uid amount db1
        let db3 := upsertProgress uid amount db2
        let db4 := confirmDepositPayout uid now db3
        .ok (db4, markDepositConfirmed pending)

/-! ## Withdrawal submission (POST /api/referrals/stats, second handler) -/

/-- Sum of `profit` over all of a user's plan-progress rows
(`progresses.reduce((sum, p) => sum + (p.profit || 0), 0)`). -/
def sumProfitsFor (uid : Nat) (ps : List UserPlanProgress) : Int :=
  ((ps.filter (fun p => p.userId == uid)).map UserPlanProgress.profit).sum

/-- Sum of `profit` over the user's rows with `profit > 0` — the rows the
top-up drain loop iterates over. -/
def sumPositiveProfitsFor (uid : Nat) (ps : List UserPlanProgress) : Int :=
  ((ps.filter (fun p => p.userId == uid && decide (0 < p.profit))).map
      UserPlanProgress.profit).sum

/-- Aggregate of the user's **paid** rewards as referrer
(`referralReward.aggregate({ referrerId, status: 'paid' }, _sum.amount)`). -/
def paidReferralSumFor (uid : Nat) (db : Db) : Int :=
  ((db.rewards.filter (fun r =>
      r.referrerId == uid && r.status == RewardStatus.paid)).map
        ReferralReward.amount).sum

/-- The withdrawable total the withdrawal route checks against:
plan profits plus paid referral rewards (NOT involving `balance`). -/
def totalProfitWithdrawRoute (uid : Nat) (db : Db) : Int :=
  sumProfitsFor uid db.progresses + paidReferralSumFor uid db

/-- The top-up drain loop: walk the user's positive-profit rows in stored
(id-ascending) order; from each take `min(profit, remaining)` and decrement
the row, until `remaining` is exhausted.  Returns the updated rows and the
total amount actually drained. -/
def drainProgresses (uid : Nat) (remaining : Int) :
    List UserPlanProgress → List UserPlanProgress × Int
  | [] => ([], 0)
  | p :: rest =>
    if p.userId == uid && decide (0 < p.profit) && decide (0 < remaining) then
      let tk := min p.profit remaining
      let out := drainProgresses uid (remaining - tk) rest
      ({ p with profit := p.profit - tk } :: out.1, tk + out.2)
    else
      let out := drainProgresses uid remaining rest
      (p :: out.1, out.2)

/-- User row after `balance: { increment: a }` (balance only — the top-up
credit does not touch `totalEarned`). -/
def addBalance (a : Int) (u : User) : User := { u with balance := u.balance + a }

/-- User row after `balance: { decrement: a }`. -/
def subBalance (a : Int) (u : User) : User := { u with balance := u.balance - a }

/-- `balance`-only increment on one user row. -/
def creditBalanceOnly (uid : Nat) (a : Int) (db : Db) : Db :=
  { db with users := updateById User.id uid (addBalance a) db.users }

/-- `balance`-only decrement on one user row. -/
def debitBalance (uid : Nat) (a : Int) (db : Db) : Db :=
  { db with users := updateById User.id uid (subBalance a) db.users }

/-- Errors of the withdrawal route. -/
inductive WithdrawError where
  | missingFields
  | nonPositiveAmount
  | userNotFound
  | insufficientTotal
deriving DecidableEq, Repr

/-- Every created withdrawal row starts with this status. -/
def withdrawPendingStatus : List Char := "pending".toList

/-- `submitWithdrawal`: validate (`!amount` catches 0, then `amount <= 0`),
check `amount ≤ totalProfit` (plan profits + paid referral rewards), compute
`neededTopUp = max(0, amount - balance)`; when positive, drain the user's
positive-profit rows and credit `balance` by the **full** `neededTopUp`
(whatever was actually drained); debit `balance` by `amount`; create a
pending withdrawal row. -/
def submitWithdrawal (uid : Nat) (amount : Int) (cur addr : List Char)
    (db : Db) : Except WithdrawError (Db × Withdrawal) :=
  if amount = 0 ∨ cur = [] ∨ addr = [] then .error .missingFields
  else if amount ≤ 0 then .error .nonPositiveAmount
  else
    match findById User.id uid db.users with
    | none => .error .userNotFound
    | some u =>
      if totalProfitWithdrawRoute uid db < amount then .error .insufficientTotal
      else
        let neededTopUp := max 0 (amount - u.balance)
        let db1 :=
          if 0 < neededTopUp then
            let drained := drainProgresses uid neededTopUp db.progresses
            creditBalanceOnly uid neededTopUp { db with progresses := drained.1 }
          else db
        let db2 := debitBalance uid amount db1
        let w : Withdrawal :=
          { id := db2.nextId, userId := uid, amount := amount, currency := cur,
            recipientAddress := addr, status := withdrawPendingStatus }
        let db3 := { db2 with
          withdrawals := db2.withdrawals ++ [w]
          nextId := db2.nextId + 1 }
        .ok (db3, w)

/-! ## Referral-code registry (src/lib/referral.ts) -/

/-- The generation alphabet `0123456789ABCDEFGHIJKLMNOPQRSTUVWXYZ`. -/
def codeAlphabet : List Char := "0123456789ABCDEFGHIJKLMNOPQRSTUVWXYZ".toList

/-- `generateReferralCode`: 8 characters, each `chars[byte % 36]` for one
byte of the random source `rnd`. -/
def generateReferralCode (rnd : Nat → Nat) : List Char :=
  (List.range 8).map fun i => codeAlphabet.getD (rnd i % 36) 'A'

/-- One character of the canonical format `[A-Z0-9]`. -/
def validCodeChar (c : Char) : Bool :=
  ( 'A' ≤ c && c ≤ 'Z') || ( '0' ≤ c && c ≤ '9')

/-- The canonical-format test `/^[A-Z0-9]{8}$/`. -/
def isValidCodeFormat (s : List Char) : Bool :=
  s.length == 8 && s.all validCodeChar

/-- The in-transaction collision check: some user already holds this code. -/
def codeTaken (code : List Char) (db : Db) : Bool :=
  (db.users.find? (fun u => u.referralCode == some code)).isSome

/-- User row after `referralCode` assignment. -/
def setCode (code : List Char) (u : User) : User :=
  { u with referralCode := some code }

/-- Errors of `getOrCreateUserReferralCode`. -/
inductive CodeError where
  | userNotFound
  | exhausted
deriving DecidableEq, Repr

/-- The retry loop: at most `fuel` further attempts; attempt number `attempt`
draws its candidate from `rnd attempt`.  On success returns the updated
store, the assigned code, and the number of generation attempts performed. -/
def tryGenerateCode (uid : Nat) (rnd : Nat → Nat → Nat) (attempt : Nat) :
    Nat → Db → Except CodeError (Db × List Char × Nat)
  | 0, _ => .error .exhausted
  | fuel + 1, db =>
    let code := generateReferralCode (rnd attempt)
    if codeTaken code db then tryGenerateCode uid rnd (attempt + 1) fuel db
    else
      .ok ({ db with users := updateById User.id uid (setCode code) db.users },
        code, attempt + 1)

/-- `const maxAttempts = 10`. -/
def maxCodeAttempts : Nat := 10

/-- `getOrCreateUserReferralCode`: a stored code already matching
`/^[A-Z0-9]{8}$/` is returned unchanged with no generation attempt; a missing
or legacy-format code goes through the bounded retry loop. -/
def getOrCreateUserReferralCode (uid : Nat) (rnd : Nat → Nat → Nat) (db : Db) :
    Except CodeError (Db × List Char × Nat) :=
  match findById User.id uid db.users with
  | none => .error .userNotFound
  | some u =>
    match u.referralCode with
    | some c =>
      if isValidCodeFormat c then .ok (db, c, 0)
      else tryGenerateCode uid rnd 0 maxCodeAttempts db
    | none => tryGenerateCode uid rnd 0 maxCodeAttempts db

/-! ## The divergent totalProfit read paths -/

/-- Plan profit of a user (shared by every variant). -/
def planProfitFor (uid : Nat) (db : Db) : Int := sumProfitsFor uid db.progresses

/-- Paid rewards where the user is referrer **or** referred — the first
all-progress variant's `referralProfit`. -/
def paidRewardsInvolving (uid : Nat) (db : Db) : Int :=
  ((db.rewards.filter (fun r =>
      (r.referrerId == uid || r.referredUserId == uid)
        && r.status == RewardStatus.paid)).map ReferralReward.amount).sum

/-- Pending rewards of the user as referrer. -/
def pendingReferralSumFor (uid : Nat) (db : Db) : Int :=
  ((db.rewards.filter (fun r =>
      r.referrerId == uid && r.status == RewardStatus.pending)).map
        ReferralReward.amount).sum

/-- `totalProfit` of the first all-progress variant:
plan profit + paid rewards involving the user on either side. -/
def totalProfitVariantA (uid : Nat) (db : Db) : Int :=
  planProfitFor uid db + paidRewardsInvolving uid db

/-- `totalProfit` of the reconciling all-progress variant: run the
reconciliation transaction, then `balance (post-reconciliation) + planProfit`
(the handler's zero-profit progress backfill cannot change the sum). -/
def totalProfitReconciled (uid : Nat) (db : Db) : Int :=
  userBalance uid (reconcileRewards uid db)
    + planProfitFor uid (reconcileRewards uid db)

/-- `totalProfit` of the pending-inclusive variant (unnamed part_004):
plan profit + paid rewards + pending rewards of the user as referrer. -/
def totalProfitPendingInclusive (uid : Nat) (db : Db) : Int :=
  planProfitFor uid db + paidReferralSumFor uid db + pendingReferralSumFor uid db


/-! ## Concrete stores used as counterexamples and witnesses -/

/-- A store with one user and a mix of paid-uncredited, paid-credited and
pending rewards, exercising the reconciliation pass. -/
def exC1Db : Db :=
  { users := [{ id := 1, balance := 5, totalEarned := 5 }]
    rewards :=
      [ { id := 1, referrerId := 1, referredUserId := 2, amount := 3,
          planAmount := 50, planType := none, status := RewardStatus.paid }
      , { id := 2, referrerId := 1, referredUserId := 3, amount := 4,
          planAmount := 100,
          planType := some ("Referral Bonus ($100 Plan)".toList),
          status := RewardStatus.paid }
      , { id := 3, referrerId := 1, referredUserId := 4, amount := 7,
          planAmount := 100,
          planType := some ("Referral Bonus ($100 Plan) [credited]".toList),
          status := RewardStatus.paid }
      , { id := 4, referrerId := 1, referredUserId := 5, amount := 9,
          planAmount := 250, planType := some ("Referral Bonus ($250 Plan)".toList),
          status := RewardStatus.pending } ]
    nextId := 6 }

/-- A store holding a **rejected** reward, fed to the library approval. -/
def exC2Db : Db :=
  { users := [{ id := 5, balance := 0, totalEarned := 0 },
              { id := 6, balance := 0, totalEarned := 0 }]
    rewards :=
      [ { id := 1, referrerId := 5, referredUserId := 6, amount := 7,
          planAmount := 150,
          planType := some ("Referral Bonus ($150 Plan)".toList),
          status := RewardStatus.rejected } ]
    nextId := 2 }

/-- A store right after user 2's deposit was confirmed: user 2 is referred by
user 1, holds an approved deposit and a $250 plan row, and no reward exists
yet.  Input to the deposit-confirmation payout step. -/
def exC3Db : Db :=
  { users := [{ id := 1, balance := 0, totalEarned := 0 },
              { id := 2, referredById := some 1, balance := 250, totalEarned := 250 }]
    deposits := [{ id := 3, userId := 2, amount := 250,
                   status := DepositStatus.approved }]
    progresses := [{ id := 4, userId := 2, planAmount := 250 }]
    nextId := 5 }

/-- Like `exC3Db` but one **pending** reward for the (1, 2) pair already
exists — the state after a first `processReferralReward` run. -/
def exC4Db : Db :=
  { users := [{ id := 1, balance := 0, totalEarned := 0 },
              { id := 2, referredById := some 1, balance := 250, totalEarned := 250 }]
    deposits := [{ id := 3, userId := 2, amount := 250,
                   status := DepositStatus.approved }]
    progresses := [{ id := 4, userId := 2, planAmount := 250 }]
    rewards := [{ id := 5, referrerId := 1, referredUserId := 2, amount := 10,
                  planAmount := 250,
                  planType := some ("Referral Bonus ($250 Plan)".toList),
                  status := RewardStatus.pending }]
    nextId := 6 }

/-- User 3 is already attributed to referrer 1; user 2 holds another valid
referral code. -/
def exC5Db : Db :=
  { users :=
      [ { id := 1, referralCode := some ("AAAAAAAA".toList), referralCount := 1 }
      , { id := 2, referralCode := some ("BBBBBBBB".toList), referralCount := 0 }
      , { id := 3, referredById := some 1,
          referredByCode := some ("AAAAAAAA".toList) } ]
    nextId := 4 }

/-- A store on which the three totalProfit read paths disagree: user 1 has an
uncredited paid reward as referrer (10), a pending reward as referrer (5) and
a paid reward as referred user (7). -/
def exC6Db : Db :=
  { users := [{ id := 1, balance := 0, totalEarned := 0 },
              { id := 9, balance := 0, totalEarned := 0 }]
    rewards :=
      [ { id := 1, referrerId := 1, referredUserId := 2, amount := 10,
          planAmount := 250, planType := some ("Referral Bonus ($250 Plan)".toList),
          status := RewardStatus.paid }
      , { id := 2, referrerId := 1, referredUserId := 3, amount := 5,
          planAmount := 150, planType := some ("Referral Bonus ($150 Plan)".toList),
          status := RewardStatus.pending }
      , { id := 3, referrerId := 9, referredUserId := 1, amount := 7,
          planAmount := 100, planType := some ("Referral Bonus ($100 Plan)".toList),
          status := RewardStatus.paid } ]
    nextId := 4 }

/-- Withdrawal state where the profit rows cannot cover the top-up: balance
0, one plan row with profit 1, and 4 of paid referral rewards, so
totalProfit = 5 but only 1 can actually be drained. -/
def exC7Db : Db :=
  { users := [{ id := 1, balance := 0, totalEarned := 0 }]
    progresses := [{ id := 1, userId := 1, planAmount := 50, profit := 1 }]
    rewards := [{ id := 2, referrerId := 1, referredUserId := 2, amount := 4,
                  planAmount := 100,
                  planType := some ("Referral Bonus ($100 Plan)".toList),
                  status := RewardStatus.paid }]
    nextId := 3 }

/-- Same shape for the money-creation demonstration: balance 0, drainable
profit 2, paid rewards 9, withdrawal of 8. -/
def exC10Db : Db :=
  { users := [{ id := 1, balance := 0, totalEarned := 0 }]
    progresses := [{ id := 1, userId := 1, planAmount := 50, profit := 2 }]
    rewards := [{ id := 2, referrerId := 1, referredUserId := 2, amount := 9,
                  planAmount := 250,
                  planType := some ("Referral Bonus ($250 Plan)".toList),
                  status := RewardStatus.paid }]
    nextId := 3 }

/-- Referred user 2 with referrer 1, an approved deposit and a $250 plan —
the happy path of reward computation. -/
def exC8Db : Db :=
  { users := [{ id := 1, balance := 0, totalEarned := 0 },
              { id := 2, referredById := some 1, balance := 250, totalEarned := 250 }]
    deposits := [{ id := 3, userId := 2, amount := 250,
                   status := DepositStatus.approved }]
    progresses := [{ id := 4, userId := 2, planAmount := 250 }]
    nextId := 5 }

/-- A fresh user about to confirm a deposit of 999 (not a plan tier). -/
def exC8DepositDb : Db :=
  { users := [{ id := 7, balance := 0, totalEarned := 0 }]
    deposits := [{ id := 1, userId := 7, amount := 999,
                   transactionHash := "h1".toList, currency := "USDT".toList,
                   status := DepositStatus.pending }]
    nextId := 2 }

/-- Referred user whose latest plan row has amount 300, a tier absent from
`PLAN_REWARDS`. -/
def exC8BadTierDb : Db :=
  { users := [{ id := 1, balance := 0, totalEarned := 0 },
              { id := 2, referredById := some 1, balance := 300, totalEarned := 300 }]
    deposits := [{ id := 3, userId := 2, amount := 300,
                   status := DepositStatus.approved }]
    progresses := [{ id := 4, userId := 2, planAmount := 300 }]
    nextId := 5 }

/-- User 1 already holds a canonical-format code. -/
def exC9Db : Db :=
  { users := [{ id := 1, referralCode := some ("ABCD1234".toList) }]
    nextId := 2 }

/-- User 1 has no code and user 2 already owns "00000000", the only code the
constant random source `fun _ _ => 0` can produce: every attempt collides. -/
def exC9CollideDb : Db :=
  { users := [{ id := 1 }, { id := 2, referralCode := some ("00000000".toList) }]
    nextId := 3 }


/-- The reward row `processReferralReward` appends on success. -/
def newRewardFor (db : Db) (uid rid : Nat) (plan : UserPlanProgress) :
    ReferralReward :=
  { id := db.nextId, referrerId := rid, referredUserId := uid,
    amount := PLAN_REWARDS plan.planAmount, planAmount := plan.planAmount,
    planType := some (mkPlanTypeLabel plan.planAmount),
    status := RewardStatus.pending, paidAt := none }

/-- Number of reward rows for one (referrer, referred) pair. -/
def pairRewardCount (rid uid : Nat) (db : Db) : Nat :=
  (db.rewards.filter fun r => r.referrerId == rid && r.referredUserId == uid).length


/-- Row-wise relation between a plan-progress row before the top-up drain and
the same row after it: identity except for `profit`, which may only shrink
and is never driven below zero (a non-positive profit is left untouched). -/
def rowDrainRel (p q : UserPlanProgress) : Prop :=
  q.id = p.id ∧ q.userId = p.userId ∧ q.planAmount = p.planAmount
    ∧ q.roundCount = p.roundCount ∧ q.canWithdraw = p.canWithdraw
    ∧ q.profit ≤ p.profit ∧ min p.profit 0 ≤ q.profit

/-! ### End of definitions -/

/-! ## Lemmas and claim theorems -/

section UpdateLemmas

variable {α : Type} (getId : α → Nat)

theorem findById_updateById (i j : Nat) (f : α → α)
    (hf : ∀ x, getId (f x) = getId x) (l : List α) :
    findById getId j (updateById getId i f l) =
      (findById getId j l).map fun x => if getId x == i then f x else x := by
  unfold findById updateById
  rw [List.find?_map]
  have hp : ((fun x => getId x == j) ∘ fun x => if getId x == i then f x else x) =
      fun x => getId x == j := by
    funext x
    by_cases h : getId x = i
    · simp [Function.comp, h, hf]
    · simp [Function.comp, h]
  rw [hp]

theorem findById_updateById_self (i : Nat) (f : α → α)
    (hf : ∀ x, getId (f x) = getId x) (l : List α) :
    findById getId i (updateById getId i f l) = (findById getId i l).map f := by
  rw [findById_updateById getId i i f hf l]
  unfold findById
  cases hfind : l.find? (fun x => getId x == i) with
  | none => rfl
  | some x =>
    have hx := List.find?_some hfind
    simp only [Option.map_some']
    rw [if_pos hx]

theorem findById_updateById_ne (i j : Nat) (f : α → α)
    (hf : ∀ x, getId (f x) = getId x) (l : List α) (hij : j ≠ i) :
    findById getId j (updateById getId i f l) = findById getId j l := by
  rw [findById_updateById getId i j f hf l]
  unfold findById
  cases hfind : l.find? (fun x => getId x == j) with
  | none => rfl
  | some x =>
    have hx := List.find?_some hfind
    have hne : ¬ getId x = i := by
      simp only [beq_iff_eq] at hx
      omega
    simp [hne]

end UpdateLemmas

theorem isCredited_markCredited (r : ReferralReward) :
    isCredited (markCredited r).planType = true := by
  simp only [markCredited, isCredited]
  rw [List.isSuffixOf_iff_suffix]
  exact List.suffix_append _ _

theorem uncreditedPaidFor_reconcile (uid : Nat) (db : Db) :
    uncreditedPaidFor uid (reconcileRewards uid db) = [] := by
  unfold reconcileRewards
  by_cases hEmpty : (uncreditedPaidFor uid db).isEmpty = true
  · rw [if_pos hEmpty]
    rwa [List.isEmpty_iff] at hEmpty
  · rw [if_neg hEmpty]
    unfold uncreditedPaidFor
    rw [List.filter_eq_nil_iff]
    intro r hr
    have hr' : r ∈ reconcileMark uid db.rewards := hr
    unfold reconcileMark at hr'
    simp only [List.mem_map] at hr'
    obtain ⟨r0, _, hr0⟩ := hr'
    by_cases hp : (r0.referrerId == uid && r0.status == RewardStatus.paid
        && !(isCredited r0.planType)) = true
    · rw [if_pos hp] at hr0
      subst hr0
      simp [markCredited, isCredited_markCredited, hp]
      intro _ _
      have := isCredited_markCredited r0
      simp only [markCredited] at this
      simp [this]
    · rw [if_neg hp] at hr0
      subst hr0
      exact fun hc => hp hc

theorem reconcileRewards_of_empty (uid : Nat) (db : Db)
    (h : uncreditedPaidFor uid db = []) : reconcileRewards uid db = db := by
  unfold reconcileRewards
  rw [h]
  rfl

theorem sumAmounts_nonneg (rs : List ReferralReward)
    (h : ∀ r ∈ rs, 0 ≤ r.amount) : 0 ≤ sumAmounts rs := by
  unfold sumAmounts
  apply List.sum_nonneg
  intro x hx
  obtain ⟨r, hr, rfl⟩ := List.mem_map.mp hx
  exact h r hr

theorem userBalance_creditUser (uid : Nat) (a : Int) (db : Db) (u : User)
    (hu : findById User.id uid db.users = some u) :
    userBalance uid (creditUser uid a db) = u.balance + a := by
  show ((findById User.id uid
      (updateById User.id uid (addEarnings a) db.users)).map User.balance).getD 0
    = u.balance + a
  rw [findById_updateById_self User.id uid (addEarnings a) (fun x => rfl) db.users, hu]
  rfl

theorem userTotalEarned_creditUser (uid : Nat) (a : Int) (db : Db) (u : User)
    (hu : findById User.id uid db.users = some u) :
    userTotalEarned uid (creditUser uid a db) = u.totalEarned + a := by
  show ((findById User.id uid
      (updateById User.id uid (addEarnings a) db.users)).map User.totalEarned).getD 0
    = u.totalEarned + a
  rw [findById_updateById_self User.id uid (addEarnings a) (fun x => rfl) db.users, hu]
  rfl

theorem userBalance_rewards_update (uid : Nat) (db : Db)
    (rs : List ReferralReward) :
    userBalance uid { db with rewards := rs } = userBalance uid db := rfl

theorem userTotalEarned_rewards_update (uid : Nat) (db : Db)
    (rs : List ReferralReward) :
    userTotalEarned uid { db with rewards := rs } = userTotalEarned uid db := rfl

theorem uncredited_amount_nonneg (uid : Nat) (db : Db)
    (hpos : ∀ r ∈ db.rewards, r.status = RewardStatus.paid → 0 ≤ r.amount) :
    ∀ r ∈ uncreditedPaidFor uid db, 0 ≤ r.amount := by
  intro r hr
  unfold uncreditedPaidFor at hr
  have h1 := List.mem_filter.mp hr
  refine hpos r h1.1 ?_
  have h2 := h1.2
  simp only [Bool.and_eq_true, beq_iff_eq] at h2
  exact h2.1.2

/-- Claim C1: one run of the balance-reconciliation step credits the user's
`balance` and `totalEarned` by exactly the sum of the uncredited paid
rewards, marks each of them credited, and a subsequent run finds no
uncredited paid reward and leaves the whole store unchanged. -/
theorem claim_C1 (db : Db) (uid : Nat) (u : User)
    (hu : findById User.id uid db.users = some u)
    (hpos : ∀ r ∈ db.rewards, r.status = RewardStatus.paid → 0 ≤ r.amount) :
    userBalance uid (reconcileRewards uid db)
        = u.balance + sumAmounts (uncreditedPaidFor uid db)
    ∧ userTotalEarned uid (reconcileRewards uid db)
        = u.totalEarned + sumAmounts (uncreditedPaidFor uid db)
    ∧ (∀ r ∈ (reconcileRewards uid db).rewards,
        r.referrerId = uid → r.status = RewardStatus.paid →
          isCredited r.planType = true)
    ∧ reconcileRewards uid (reconcileRewards uid db) = reconcileRewards uid db := by
  have hmark : ∀ r ∈ (reconcileRewards uid db).rewards,
      r.referrerId = uid → r.status = RewardStatus.paid →
        isCredited r.planType = true := by
    have h := uncreditedPaidFor_reconcile uid db
    unfold uncreditedPaidFor at h
    rw [List.filter_eq_nil_iff] at h
    intro r hr h1 h2
    have hp := h r hr
    simpa [h1, h2] using hp
  have hnn := uncredited_amount_nonneg uid db hpos
  have hbal : userBalance uid (reconcileRewards uid db)
      = u.balance + sumAmounts (uncreditedPaidFor uid db) ∧
      userTotalEarned uid (reconcileRewards uid db)
      = u.totalEarned + sumAmounts (uncreditedPaidFor uid db) := by
    by_cases hE : (uncreditedPaidFor uid db).isEmpty = true
    · have hnil : uncreditedPaidFor uid db = [] := List.isEmpty_iff.mp hE
      rw [reconcileRewards_of_empty uid db hnil, hnil]
      unfold userBalance userTotalEarned
      rw [hu]
      constructor <;> simp [sumAmounts]
    · unfold reconcileRewards
      rw [if_neg hE, userBalance_rewards_update, userTotalEarned_rewards_update]
      by_cases hc : 0 < sumAmounts (uncreditedPaidFor uid db)
      · rw [if_pos hc, userBalance_creditUser uid _ db u hu,
          userTotalEarned_creditUser uid _ db u hu]
        exact ⟨rfl, rfl⟩
      · have h0 : sumAmounts (uncreditedPaidFor uid db) = 0 :=
          le_antisymm (not_lt.mp hc) (sumAmounts_nonneg _ hnn)
      
        rw [if_neg hc, h0]
        unfold userBalance userTotalEarned
        rw [hu]
        constructor <;> simp
  exact ⟨hbal.1, hbal.2, hmark,
    reconcileRewards_of_empty uid _ (uncreditedPaidFor_reconcile uid db)⟩

/-- Witness for C1 at the concrete store `exC1Db` (user 1 holds 5, two
uncredited paid rewards of 3 and 4): one run yields balance 12 and a second
run is the identity. -/
theorem claim_C1_witness :
    userBalance 1 (reconcileRewards 1 exC1Db) = 12
    ∧ userTotalEarned 1 (reconcileRewards 1 exC1Db) = 12
    ∧ reconcileRewards 1 (reconcileRewards 1 exC1Db) = reconcileRewards 1 exC1Db := by
  have h := claim_C1 exC1Db 1
    { id := 1, balance := 5, totalEarned := 5 } (by decide) (by decide)
  refine ⟨?_, ?_, h.2.2.2⟩
  · rw [h.1]; decide
  · rw [h.2.1]; decide

theorem approveReferralReward_ok (db : Db) (rid now : Nat)
    (reward : ReferralReward)
    (hr : findById ReferralReward.id rid db.rewards = some reward)
    (hs : reward.status ≠ RewardStatus.paid) :
    approveReferralReward rid now db = Except.ok
      ({ creditUser
          (if reward.planType = some referredUserBonusLabel
           then reward.referredUserId else reward.referrerId)
          reward.amount db with
         rewards := updateById ReferralReward.id rid (markRewardPaid now) db.rewards },
       markRewardPaid now reward) := by
  unfold approveReferralReward
  simp only [hr]
  rw [if_neg hs]
  rfl

/-- Claim C2 counterexample: the reward of `exC2Db` has status rejected — not
pending — yet the library approval succeeds, marks it paid and credits the
referrer with 7, instead of failing with no state change. -/
theorem claim_C2_counterexample :
    (findById ReferralReward.id 1 exC2Db.rewards).map ReferralReward.status
      = some RewardStatus.rejected
    ∧ (approveReferralReward 1 0 exC2Db).toOption.map
        (fun p => (p.2.status, userBalance 5 p.1, userTotalEarned 5 p.1))
      = some (RewardStatus.paid, 7, 7) := by
  exact ⟨by decide, by decide⟩

/-- Claim C2 (amended): the library approval fails — leaving the store
untouched, the transaction aborting before any write — exactly when the
reward is missing or already **paid**; for a reward in any other status,
pending or rejected alike, it marks the reward paid with `paidAt = now` and
credits the recipient's `balance` and `totalEarned` by the reward amount,
the recipient being the referrer unless `planType` is literally
"Referred User Bonus" (in which case the referred user is credited). -/
theorem claim_C2 (db : Db) (rid : Nat) (now : Nat) :
    (findById ReferralReward.id rid db.rewards = none →
      approveReferralReward rid now db
        = Except.error ApproveError.invalidOrProcessed)
    ∧ (∀ reward, findById ReferralReward.id rid db.rewards = some reward →
        reward.status = RewardStatus.paid →
        approveReferralReward rid now db
          = Except.error ApproveError.invalidOrProcessed)
    ∧ (∀ reward cu target, findById ReferralReward.id rid db.rewards = some reward →
        reward.status ≠ RewardStatus.paid →
        (if reward.planType = some referredUserBonusLabel
         then reward.referredUserId else reward.referrerId) = target →
        findById User.id target db.users = some cu →
        ∃ db', approveReferralReward rid now db
            = Except.ok (db', markRewardPaid now reward)
          ∧ userBalance target db' = cu.balance + reward.amount
          ∧ userTotalEarned target db' = cu.totalEarned + reward.amount
          ∧ findById ReferralReward.id rid db'.rewards
              = some (markRewardPaid now reward)
          ∧ (markRewardPaid now reward).status = RewardStatus.paid
          ∧ (markRewardPaid now reward).paidAt = some now) := by
  refine ⟨?_, ?_, ?_⟩
  · intro hnone
    unfold approveReferralReward
    rw [hnone]
  · intro reward hr hp
    unfold approveReferralReward
    simp only [hr]
    rw [if_pos hp]
  · intro reward cu target hr hs htarget hcu
    subst htarget
    refine ⟨_, approveReferralReward_ok db rid now reward hr hs, ?_, ?_, ?_, rfl, rfl⟩
    · rw [userBalance_rewards_update]
      exact userBalance_creditUser _ _ db cu hcu
    · rw [userTotalEarned_rewards_update]
      exact userTotalEarned_creditUser _ _ db cu hcu
    · show findById ReferralReward.id rid
        (updateById ReferralReward.id rid (markRewardPaid now) db.rewards)
          = some (markRewardPaid now reward)
      rw [findById_updateById_self ReferralReward.id rid (markRewardPaid now)
        (fun x => rfl) db.rewards, hr]
      rfl

/-- Witness for C2 at `exC2Db`: applying the amended theorem to the rejected
reward credits user 5 with 7 and returns the reward marked paid. -/
theorem claim_C2_witness :
    ∃ db', approveReferralReward 1 0 exC2Db
        = Except.ok (db', markRewardPaid 0
          { id := 1, referrerId := 5, referredUserId := 6, amount := 7,
            planAmount := 150,
            planType := some ("Referral Bonus ($150 Plan)".toList),
            status := RewardStatus.rejected })
      ∧ userBalance 5 db' = 0 + 7
      ∧ userTotalEarned 5 db' = 0 + 7
      ∧ findById ReferralReward.id 1 db'.rewards = some (markRewardPaid 0
          { id := 1, referrerId := 5, referredUserId := 6, amount := 7,
            planAmount := 150,
            planType := some ("Referral Bonus ($150 Plan)".toList),
            status := RewardStatus.rejected }) := by
  obtain ⟨db', h1, h2, h3, h4, _, _⟩ := (claim_C2 exC2Db 1 0).2.2
    { id := 1, referrerId := 5, referredUserId := 6, amount := 7,
      planAmount := 150,
      planType := some ("Referral Bonus ($150 Plan)".toList),
      status := RewardStatus.rejected }
    { id := 5, balance := 0, totalEarned := 0 } 5
    (by decide) (by decide) (by decide) (by decide)
  exact ⟨db', h1, h2, h3, h4⟩

theorem processReferralReward_ok (db : Db) (uid : Nat) (u : User) (rid : Nat)
    (ref : User) (d : Deposit) (plan : UserPlanProgress)
    (hu : findById User.id uid db.users = some u)
    (hrid : u.referredById = some rid)
    (href : findById User.id rid db.users = some ref)
    (hnopaid : db.rewards.find? (fun r => r.referredUserId == uid
        && r.referrerId == rid && r.status == RewardStatus.paid) = none)
    (hdep : db.deposits.find? (fun d => d.userId == uid
        && d.status == DepositStatus.approved) = some d)
    (hplan : latestPlanFor uid db = some plan)
    (hamt : ¬ PLAN_REWARDS plan.planAmount ≤ 0) :
    processReferralReward uid db = Except.ok
      ({ db with
         rewards := db.rewards ++ [newRewardFor db uid rid plan]
         nextId := db.nextId + 1 },
       some { rewardAmount := PLAN_REWARDS plan.planAmount,
              rewardId := db.nextId, referrerId := rid,
              referredUserId := uid, planAmount := plan.planAmount }) := by
  unfold processReferralReward
  simp only [hu, hrid, href, hnopaid, hdep, hplan]
  rw [if_neg hamt]
  rfl

theorem processReferralReward_created_pending (uid : Nat) (db db1 : Db)
    (res : ProcessResult)
    (h : processReferralReward uid db = Except.ok (db1, some res)) :
    ∃ r, db1.rewards = db.rewards ++ [r]
      ∧ r.status = RewardStatus.pending
      ∧ r.id = res.rewardId ∧ r.id = db.nextId
      ∧ db1.users = db.users ∧ db1.nextId = db.nextId + 1 := by
  unfold processReferralReward at h
  split at h
  · simp at h
  · split at h
    · simp at h
    · split at h
      · simp at h
      · split at h
        · simp at h
        · split at h
          · simp at h
          · split at h
            · simp at h
            · dsimp only [] at h
              split at h
              · simp at h
              · simp only [Except.ok.injEq, Prod.mk.injEq, Option.some.injEq] at h
                obtain ⟨hdb, hres⟩ := h
                subst hdb
                subst hres
                exact ⟨_, rfl, rfl, rfl, rfl, rfl, rfl⟩

theorem findById_append_single {α : Type} (getId : α → Nat) (i : Nat)
    (l : List α) (x : α) (hl : ∀ y ∈ l, getId y ≠ i) (hx : getId x = i) :
    findById getId i (l ++ [x]) = some x := by
  unfold findById
  rw [List.find?_append]
  have h1 : l.find? (fun y => getId y == i) = none := by
    rw [List.find?_eq_none]
    intro y hy
    simp [hl y hy]
  rw [h1]
  simp [hx]

/-- Claim C3 counterexample: on `exC3Db` — referred user 2, no reward yet —
the deposit-confirmation payout step, which involves no admin at all, leaves
a **paid** reward for the pair (1, 2) and referrer 1 already credited with
10: the deposit-confirmation flow does pay the reward itself. -/
theorem claim_C3_counterexample :
    exC3Db.rewards = []
    ∧ (confirmDepositPayout 2 0 exC3Db).rewards.map
        (fun r => (r.referrerId, r.referredUserId, r.status))
      = [(1, 2, RewardStatus.paid)]
    ∧ userBalance 1 (confirmDepositPayout 2 0 exC3Db) = 10 := by
  exact ⟨rfl, by decide, by decide⟩

/-- Claim C3 (amended): the admin route refuses any non-admin caller with
Forbidden and no state change, and `processReferralReward` itself always
creates the reward with status pending — but the deposit-confirmation flow
then immediately auto-approves the freshly created reward through the
library approval, which performs no role check, so the reward reaches status
paid with no admin involved. -/
theorem claim_C3 (db : Db) (role : Role) (rid uid now : Nat) :
    (role ≠ Role.admin →
      approveRewardRoute role rid now db = Except.error RouteError.forbidden)
    ∧ (∀ db1 res, processReferralReward uid db = Except.ok (db1, some res) →
        ∃ r, db1.rewards = db.rewards ++ [r] ∧ r.status = RewardStatus.pending)
    ∧ (∀ u rid0 db1 res, findById User.id uid db.users = some u →
        u.referredById = some rid0 →
        (∀ r ∈ db.rewards, r.id < db.nextId) →
        processReferralReward uid db = Except.ok (db1, some res) →
        ∃ r, findById ReferralReward.id res.rewardId
            (confirmDepositPayout uid now db).rewards = some r
          ∧ r.status = RewardStatus.paid) := by
  refine ⟨?_, ?_, ?_⟩
  · intro hrole
    unfold approveRewardRoute
    rw [if_pos hrole]
  · intro db1 res hE
    obtain ⟨r, hrew, hpend, _⟩ :=
      processReferralReward_created_pending uid db db1 res hE
    exact ⟨r, hrew, hpend⟩
  · intro u rid0 db1 res hu hrid hfresh hE
    obtain ⟨r0, hrew, hpend, hid1, hid2, husers, hnext⟩ :=
      processReferralReward_created_pending uid db db1 res hE
    have hfind : findById ReferralReward.id res.rewardId db1.rewards = some r0 := by
      rw [hrew]
      apply findById_append_single ReferralReward.id res.rewardId db.rewards r0
      · intro y hy
        have hlt := hfresh y hy
        omega
      · exact hid1
    have hs : r0.status ≠ RewardStatus.paid := by
      rw [hpend]
      decide
    have happ := approveReferralReward_ok db1 res.rewardId now r0 hfind hs
    unfold confirmDepositPayout
    simp only [hu, hrid, hE, happ]
    refine ⟨markRewardPaid now r0, ?_, rfl⟩
    show findById ReferralReward.id res.rewardId
        (updateById ReferralReward.id res.rewardId (markRewardPaid now) db1.rewards)
      = some (markRewardPaid now r0)
    rw [findById_updateById_self ReferralReward.id res.rewardId (markRewardPaid now)
      (fun x => rfl) db1.rewards, hfind]
    rfl

/-- Witness for C3: a non-admin call to the approval route is Forbidden, and
applying the amended theorem's payout part to `exC3Db` exhibits the
auto-paid reward. -/
theorem claim_C3_witness :
    approveRewardRoute Role.user 5 0 exC3Db = Except.error RouteError.forbidden
    ∧ ∃ r, findById ReferralReward.id 5 (confirmDepositPayout 2 0 exC3Db).rewards
        = some r ∧ r.status = RewardStatus.paid := by
  have h := claim_C3 exC3Db Role.user 5 2 0
  refine ⟨h.1 (by decide), ?_⟩
  exact h.2.2
    { id := 2, referredById := some 1, balance := 250, totalEarned := 250 } 1
    { users := [{ id := 1, balance := 0, totalEarned := 0 },
                { id := 2, referredById := some 1, balance := 250,
                  totalEarned := 250 }]
      deposits := [{ id := 3, userId := 2, amount := 250,
                     status := DepositStatus.approved }]
      progresses := [{ id := 4, userId := 2, planAmount := 250 }]
      rewards := [{ id := 5, referrerId := 1, referredUserId := 2, amount := 10,
                    planAmount := 250,
                    planType := some ("Referral Bonus ($250 Plan)".toList),
                    status := RewardStatus.pending }]
      nextId := 6 }
    { rewardAmount := 10, rewardId := 5, referrerId := 1, referredUserId := 2,
      planAmount := 250 }
    (by decide) (by decide) (by decide) (by rfl)

/-- Claim C4 counterexample: `exC4Db` already holds one **pending** reward
for the pair (1, 2); a further `processReferralReward` run does not detect it
— the guard looks for paid rewards only — and creates a second row for the
same pair. -/
theorem claim_C4_counterexample :
    pairRewardCount 1 2 exC4Db = 1
    ∧ (exC4Db.rewards.map ReferralReward.status) = [RewardStatus.pending]
    ∧ (processReferralReward 2 exC4Db).toOption.map
        (fun p => pairRewardCount 1 2 p.1) = some 2 := by
  exact ⟨by decide, by decide, by decide⟩

/-- Claim C4 (amended): the idempotency guard of reward creation only fires
on an existing **paid** reward for the (referrer, referred) pair — in that
case nothing is created and the store is returned unchanged; when the
existing reward is still pending the guard does not see it and a second
reward row for the same pair is appended. -/
theorem claim_C4 (db : Db) (uid : Nat) :
    (∀ u rid r0, findById User.id uid db.users = some u →
      u.referredById = some rid →
      db.rewards.find? (fun r => r.referredUserId == uid && r.referrerId == rid
        && r.status == RewardStatus.paid) = some r0 →
      processReferralReward uid db = Except.ok (db, none))
    ∧ (∀ u rid ref d plan, findById User.id uid db.users = some u →
        u.referredById = some rid →
        findById User.id rid db.users = some ref →
        db.rewards.find? (fun r => r.referredUserId == uid && r.referrerId == rid
          && r.status == RewardStatus.paid) = none →
        db.deposits.find? (fun d => d.userId == uid
          && d.status == DepositStatus.approved) = some d →
        latestPlanFor uid db = some plan →
        ¬ PLAN_REWARDS plan.planAmount ≤ 0 →
        ∃ db1, processReferralReward uid db
            = Except.ok (db1,
                some { rewardAmount := PLAN_REWARDS plan.planAmount,
                       rewardId := db.nextId, referrerId := rid,
                       referredUserId := uid, planAmount := plan.planAmount })
          ∧ pairRewardCount rid uid db1 = pairRewardCount rid uid db + 1) := by
  constructor
  · intro u rid r0 hu hrid hfound
    unfold processReferralReward
    simp only [hu, hrid]
    cases href : findById User.id rid db.users with
    | none => rfl
    | some ref => simp only [hfound]
  · intro u rid ref d plan hu hrid href hnopaid hdep hplan hamt
    refine ⟨_, processReferralReward_ok db uid u rid ref d plan
      hu hrid href hnopaid hdep hplan hamt, ?_⟩
    show pairRewardCount rid uid
        { db with
          rewards := db.rewards ++ [newRewardFor db uid rid plan]
          nextId := db.nextId + 1 }
      = pairRewardCount rid uid db + 1
    unfold pairRewardCount
    show (List.filter _ (db.rewards ++ [newRewardFor db uid rid plan])).length = _
    rw [List.filter_append, List.length_append]
    simp [newRewardFor]

/-- Witness for C4 at `exC4Db`: the second run returns a store holding two
rewards for the pair. -/
theorem claim_C4_witness :
    ∃ db1, processReferralReward 2 exC4Db
        = Except.ok (db1,
            some { rewardAmount := 10, rewardId := 6,
                   referrerId := 1, referredUserId := 2, planAmount := 250 })
      ∧ pairRewardCount 1 2 db1 = pairRewardCount 1 2 exC4Db + 1 := by
  exact (claim_C4 exC4Db 2).2
    { id := 2, referredById := some 1, balance := 250, totalEarned := 250 } 1
    { id := 1, balance := 0, totalEarned := 0 }
    { id := 3, userId := 2, amount := 250, status := DepositStatus.approved }
    { id := 4, userId := 2, planAmount := 250 }
    (by decide) (by decide) (by decide) (by decide) (by decide) (by decide)
    (by decide)

theorem processReferral_found (uid : Nat) (code : List Char) (db : Db)
    (hc : code ≠ []) (referrer : User)
    (hfound : db.users.find? (fun v => v.referralCode == some (upper code)
      && !(v.id == uid)) = some referrer) :
    processReferral uid (some code) db =
      ({ db with
          users :=
            updateById User.id referrer.id bumpReferralCount
              (updateById User.id uid (setReferrer (upper code) referrer.id)
                db.users) },
       some referrer.id) := by
  simp only [processReferral]
  rw [if_neg hc]
  simp only [hfound]

/-- Claim C5 counterexample: user 3 of `exC5Db` is already attributed to
referrer 1, yet a second `processReferral` call with user 2's code
overwrites `referredById` to 2 and increments user 2's `referralCount` —
not the claimed no-op. -/
theorem claim_C5_counterexample :
    (findById User.id 3 exC5Db.users).map User.referredById = some (some 1)
    ∧ (findById User.id 2 exC5Db.users).map User.referralCount = some 0
    ∧ (findById User.id 3
        (processReferral 3 (some ("BBBBBBBB".toList)) exC5Db).1.users).map
          User.referredById = some (some 2)
    ∧ (findById User.id 2
        (processReferral 3 (some ("BBBBBBBB".toList)) exC5Db).1.users).map
          User.referralCount = some 1
    ∧ (processReferral 3 (some ("BBBBBBBB".toList)) exC5Db).2 = some 2 := by
  exact ⟨by decide, by decide, by decide, by decide, by decide⟩

/-- Claim C5 (amended): attribution never checks the current
`referredById`/`referredByCode`: whenever the supplied code is non-empty and
a matching non-self referrer exists, it overwrites the user's referrer fields
with the new code and referrer id — even when a referrer was already set —
and increments the **new** referrer's `referralCount`; only an empty or
unknown code leaves the store untouched. -/
theorem claim_C5 (db : Db) (uid : Nat) (code : List Char) :
    (code ≠ [] → ∀ referrer u cu,
      db.users.find? (fun v => v.referralCode == some (upper code)
        && !(v.id == uid)) = some referrer →
      findById User.id uid db.users = some u →
      findById User.id referrer.id db.users = some cu →
      findById User.id uid (processReferral uid (some code) db).1.users
          = some (setReferrer (upper code) referrer.id u)
        ∧ findById User.id referrer.id
            (processReferral uid (some code) db).1.users
          = some (bumpReferralCount cu)
        ∧ (processReferral uid (some code) db).2 = some referrer.id)
    ∧ (db.users.find? (fun v => v.referralCode == some (upper code)
        && !(v.id == uid)) = none →
      processReferral uid (some code) db = (db, none)) := by
  constructor
  · intro hc referrer u cu hfound hu hcu
    have hp := List.find?_some hfound
    simp only [Bool.and_eq_true, beq_iff_eq, Bool.not_eq_true', beq_eq_false_iff_ne,
      ne_eq] at hp
    have hne : referrer.id ≠ uid := hp.2
    rw [processReferral_found uid code db hc referrer hfound]
    refine ⟨?_, ?_, rfl⟩
    · show findById User.id uid (updateById User.id referrer.id bumpReferralCount
        (updateById User.id uid (setReferrer (upper code) referrer.id) db.users))
        = some (setReferrer (upper code) referrer.id u)
      rw [findById_updateById_ne User.id referrer.id uid bumpReferralCount
        (fun x => rfl) _ (fun hcon => hne hcon.symm),
        findById_updateById_self User.id uid (setReferrer (upper code) referrer.id)
        (fun x => rfl) db.users, hu]
      rfl
    · show findById User.id referrer.id (updateById User.id referrer.id
        bumpReferralCount
        (updateById User.id uid (setReferrer (upper code) referrer.id) db.users))
        = some (bumpReferralCount cu)
      rw [findById_updateById_self User.id referrer.id bumpReferralCount
        (fun x => rfl),
        findById_updateById_ne User.id uid referrer.id
          (setReferrer (upper code) referrer.id) (fun x => rfl) db.users hne,
        hcu]
      rfl
  · intro hnone
    simp only [processReferral]
    by_cases hc : code = []
    · rw [if_pos hc]
    · rw [if_neg hc]
      simp only [hnone]

/-- Witness for C5 at `exC5Db`: the amended theorem applied to the second
attribution call shows the overwrite and the count bump. -/
theorem claim_C5_witness :
    findById User.id 3
        (processReferral 3 (some ("BBBBBBBB".toList)) exC5Db).1.users
      = some (setReferrer (upper ("BBBBBBBB".toList)) 2
          { id := 3, referredById := some 1,
            referredByCode := some ("AAAAAAAA".toList) })
    ∧ findById User.id 2
        (processReferral 3 (some ("BBBBBBBB".toList)) exC5Db).1.users
      = some (bumpReferralCount
          { id := 2, referralCode := some ("BBBBBBBB".toList),
            referralCount := 0 }) := by
  have h := (claim_C5 exC5Db 3 ("BBBBBBBB".toList)).1 (by decide)
    { id := 2, referralCode := some ("BBBBBBBB".toList), referralCount := 0 }
    { id := 3, referredById := some 1,
      referredByCode := some ("AAAAAAAA".toList) }
    { id := 2, referralCode := some ("BBBBBBBB".toList), referralCount := 0 }
    (by decide) (by decide) (by decide)
  exact ⟨h.1, h.2.1⟩

theorem reconcileRewards_userBalance (db : Db) (uid : Nat) (u : User)
    (hu : findById User.id uid db.users = some u)
    (hpos : ∀ r ∈ db.rewards, r.status = RewardStatus.paid → 0 ≤ r.amount) :
    userBalance uid (reconcileRewards uid db)
      = u.balance + sumAmounts (uncreditedPaidFor uid db) := by
  have hnn := uncredited_amount_nonneg uid db hpos
  by_cases hE : (uncreditedPaidFor uid db).isEmpty = true
  · have hnil : uncreditedPaidFor uid db = [] := List.isEmpty_iff.mp hE
    rw [reconcileRewards_of_empty uid db hnil, hnil]
    unfold userBalance
    rw [hu]
    simp [sumAmounts]
  · unfold reconcileRewards
    rw [if_neg hE, userBalance_rewards_update]
    by_cases hc : 0 < sumAmounts (uncreditedPaidFor uid db)
    · rw [if_pos hc, userBalance_creditUser uid _ db u hu]
    · have h0 : sumAmounts (uncreditedPaidFor uid db) = 0 :=
        le_antisymm (not_lt.mp hc) (sumAmounts_nonneg _ hnn)
      rw [if_neg hc, h0]
      unfold userBalance
      rw [hu]
      simp

theorem reconcileRewards_progresses (uid : Nat) (db : Db) :
    (reconcileRewards uid db).progresses = db.progresses := by
  unfold reconcileRewards
  by_cases hE : (uncreditedPaidFor uid db).isEmpty = true
  · rw [if_pos hE]
  · rw [if_neg hE]
    by_cases hc : 0 < sumAmounts (uncreditedPaidFor uid db)
    · rw [if_pos hc]
      rfl
    · rw [if_neg hc]

/-- Claim C6 counterexample: on `exC6Db` the three read paths return three
different totals — 17 (plan profit + paid rewards on either side), 10
(post-reconciliation balance + plan profit) and 15 (plan profit + paid +
pending rewards as referrer) — so not every read path returns the
balance-based authoritative value. -/
theorem claim_C6_counterexample :
    totalProfitVariantA 1 exC6Db = 17
    ∧ totalProfitReconciled 1 exC6Db = 10
    ∧ totalProfitPendingInclusive 1 exC6Db = 15
    ∧ totalProfitVariantA 1 exC6Db ≠ totalProfitReconciled 1 exC6Db
    ∧ totalProfitPendingInclusive 1 exC6Db ≠ totalProfitReconciled 1 exC6Db := by
  exact ⟨by decide, by decide, by decide, by decide, by decide⟩

/-- Claim C6 (amended): only the reconciling all-progress variant computes
the authoritative value — its totalProfit equals the pre-reconciliation
balance plus the sum of the user's uncredited paid rewards plus plan profit;
the other read paths (plan profit + paid rewards involving the user, and
plan profit + paid + pending rewards as referrer) use different formulas and
disagree with it in general. -/
theorem claim_C6 (db : Db) (uid : Nat) (u : User)
    (hu : findById User.id uid db.users = some u)
    (hpos : ∀ r ∈ db.rewards, r.status = RewardStatus.paid → 0 ≤ r.amount) :
    totalProfitReconciled uid db
      = u.balance + sumAmounts (uncreditedPaidFor uid db)
        + planProfitFor uid db := by
  unfold totalProfitReconciled planProfitFor
  rw [reconcileRewards_userBalance db uid u hu hpos, reconcileRewards_progresses]

/-- Witness for C6 at `exC6Db`: the reconciled total evaluates to 10 =
0 + 10 + 0. -/
theorem claim_C6_witness :
    totalProfitReconciled 1 exC6Db = 10 := by
  rw [claim_C6 exC6Db 1 { id := 1, balance := 0, totalEarned := 0 }
    (by decide) (by decide)]
  decide

theorem sumPositiveProfitsFor_nonneg (uid : Nat) (ps : List UserPlanProgress) :
    0 ≤ sumPositiveProfitsFor uid ps := by
  unfold sumPositiveProfitsFor
  apply List.sum_nonneg
  intro x hx
  obtain ⟨p, hp, rfl⟩ := List.mem_map.mp hx
  have h := (List.mem_filter.mp hp).2
  simp only [Bool.and_eq_true, decide_eq_true_eq] at h
  exact le_of_lt h.2

theorem sumProfitsFor_cons (uid : Nat) (p : UserPlanProgress)
    (l : List UserPlanProgress) :
    sumProfitsFor uid (p :: l)
      = (if p.userId == uid then p.profit else 0) + sumProfitsFor uid l := by
  unfold sumProfitsFor
  rw [List.filter_cons]
  by_cases h : (p.userId == uid) = true
  · rw [if_pos h, if_pos h]
    simp
  · rw [if_neg h, if_neg h]
    simp

theorem sumPositiveProfitsFor_cons (uid : Nat) (p : UserPlanProgress)
    (l : List UserPlanProgress) :
    sumPositiveProfitsFor uid (p :: l)
      = (if p.userId == uid && decide (0 < p.profit) then p.profit else 0)
        + sumPositiveProfitsFor uid l := by
  unfold sumPositiveProfitsFor
  rw [List.filter_cons]
  by_cases h : (p.userId == uid && decide (0 < p.profit)) = true
  · rw [if_pos h, if_pos h]
    simp
  · rw [if_neg h, if_neg h]
    simp

theorem drainProgresses_total (uid : Nat) (rem : Int)
    (ps : List UserPlanProgress) (hrem : 0 ≤ rem) :
    (drainProgresses uid rem ps).2
      = min rem (sumPositiveProfitsFor uid ps) := by
  induction ps generalizing rem with
  | nil =>
    simp only [drainProgresses, sumPositiveProfitsFor, List.filter_nil,
      List.map_nil, List.sum_nil]
    omega
  | cons p rest ih =>
    unfold drainProgresses
    rw [sumPositiveProfitsFor_cons]
    by_cases hcond : (p.userId == uid && decide (0 < p.profit)
        && decide (0 < rem)) = true
    · rw [if_pos hcond]
      simp only [Bool.and_eq_true, decide_eq_true_eq] at hcond
      obtain ⟨⟨hid, hprof⟩, hr⟩ := hcond
      have hmin := min_le_right p.profit rem
      have := ih (rem - min p.profit rem) (by omega)
      dsimp only []
      rw [this]
      have hS := sumPositiveProfitsFor_nonneg uid rest
      rw [if_pos (by simp [hid, hprof])]
      omega
    · rw [if_neg hcond]
      dsimp only []
      rw [ih rem hrem]
      by_cases hp : (p.userId == uid && decide (0 < p.profit)) = true
      · have hrem0 : rem = 0 := by
          by_contra hne
          have h0 : 0 < rem := lt_of_le_of_ne hrem (Ne.symm hne)
          rw [hp] at hcond
          simp [h0] at hcond
        subst hrem0
        have hS1 := sumPositiveProfitsFor_nonneg uid rest
        simp only [Bool.and_eq_true, decide_eq_true_eq] at hp
        rw [if_pos (by simp [hp.1, hp.2])]
        omega
      · rw [if_neg hp]
        omega

theorem drainProgresses_rows (uid : Nat) (rem : Int)
    (ps : List UserPlanProgress) :
    List.Forall₂ rowDrainRel ps (drainProgresses uid rem ps).1 := by
  induction ps generalizing rem with
  | nil =>
    simp only [drainProgresses]
    exact List.Forall₂.nil
  | cons p rest ih =>
    unfold drainProgresses
    by_cases hcond : (p.userId == uid && decide (0 < p.profit)
        && decide (0 < rem)) = true
    · rw [if_pos hcond]
      dsimp only []
      simp only [Bool.and_eq_true, decide_eq_true_eq] at hcond
      obtain ⟨⟨hid, hprof⟩, hr⟩ := hcond
      refine List.Forall₂.cons ?_ (ih _)
      have h1 := min_le_left p.profit rem
      have h2 := min_le_right p.profit rem
      refine ⟨rfl, rfl, rfl, rfl, rfl, ?_, ?_⟩ <;> simp only [] <;> omega
    · rw [if_neg hcond]
      dsimp only []
      refine List.Forall₂.cons ?_ (ih rem)
      have h1 := min_le_left p.profit (0 : Int)
      exact ⟨rfl, rfl, rfl, rfl, rfl, le_rfl, h1⟩

theorem drainProgresses_sum (uid : Nat) (rem : Int)
    (ps : List UserPlanProgress) :
    sumProfitsFor uid (drainProgresses uid rem ps).1
      = sumProfitsFor uid ps - (drainProgresses uid rem ps).2 := by
  induction ps generalizing rem with
  | nil =>
    simp [drainProgresses, sumProfitsFor]
  | cons p rest ih =>
    unfold drainProgresses
    by_cases hcond : (p.userId == uid && decide (0 < p.profit)
        && decide (0 < rem)) = true
    · rw [if_pos hcond]
      dsimp only []
      have hid : (p.userId == uid) = true := by
        simp only [Bool.and_eq_true] at hcond
        exact hcond.1.1
      rw [sumProfitsFor_cons, sumProfitsFor_cons, if_pos hid, ih]
      show p.profit - min p.profit rem
          + (sumProfitsFor uid rest - (drainProgresses uid (rem - min p.profit rem) rest).2)
        = _
      rw [if_pos hid]
      omega
    · rw [if_neg hcond]
      dsimp only []
      rw [sumProfitsFor_cons, sumProfitsFor_cons, ih]
      omega

theorem submitWithdrawal_eq_topup (uid : Nat) (X : Int) (cur addr : List Char)
    (db : Db) (u : User)
    (hu : findById User.id uid db.users = some u)
    (hX : 0 < X) (hcur : cur ≠ []) (haddr : addr ≠ [])
    (hle : ¬ totalProfitWithdrawRoute uid db < X)
    (hT : 0 < max 0 (X - u.balance)) :
    submitWithdrawal uid X cur addr db =
      Except.ok
        ({ users := updateById User.id uid (subBalance X)
             (updateById User.id uid (addBalance (max 0 (X - u.balance)))
               db.users)
           deposits := db.deposits
           progresses :=
             (drainProgresses uid (max 0 (X - u.balance)) db.progresses).1
           rewards := db.rewards
           withdrawals := db.withdrawals ++
             [{ id := db.nextId, userId := uid, amount := X, currency := cur,
                recipientAddress := addr, status := withdrawPendingStatus }]
           nextId := db.nextId + 1 },
         { id := db.nextId, userId := uid, amount := X, currency := cur,
           recipientAddress := addr, status := withdrawPendingStatus }) := by
  unfold submitWithdrawal
  rw [if_neg (by push_neg; exact ⟨by omega, hcur, haddr⟩)]
  rw [if_neg (by omega : ¬ X ≤ 0)]
  simp only [hu]
  rw [if_neg hle]
  rw [if_pos hT]
  rfl

theorem submitWithdrawal_eq_nodrain (uid : Nat) (X : Int) (cur addr : List Char)
    (db : Db) (u : User)
    (hu : findById User.id uid db.users = some u)
    (hX : 0 < X) (hcur : cur ≠ []) (haddr : addr ≠ [])
    (hle : ¬ totalProfitWithdrawRoute uid db < X)
    (hT : ¬ 0 < max 0 (X - u.balance)) :
    submitWithdrawal uid X cur addr db =
      Except.ok
        ({ users := updateById User.id uid (subBalance X) db.users
           deposits := db.deposits
           progresses := db.progresses
           rewards := db.rewards
           withdrawals := db.withdrawals ++
             [{ id := db.nextId, userId := uid, amount := X, currency := cur,
                recipientAddress := addr, status := withdrawPendingStatus }]
           nextId := db.nextId + 1 },
         { id := db.nextId, userId := uid, amount := X, currency := cur,
           recipientAddress := addr, status := withdrawPendingStatus }) := by
  unfold submitWithdrawal
  rw [if_neg (by push_neg; exact ⟨by omega, hcur, haddr⟩)]
  rw [if_neg (by omega : ¬ X ≤ 0)]
  simp only [hu]
  rw [if_neg hle]
  rw [if_neg hT]
  rfl

/-- Claim C7 counterexample: on `exC7Db` (balance 0, one profit row worth 1,
paid rewards worth 4, so totalProfit = 5) a withdrawal of X = 4 has shortfall
topUp = 4, but only 1 is actually drained from the profit rows — the claimed
"the shortfall topUp = X - balance_before is drained from the profit rows"
fails — while balance is still credited the full 4. -/
theorem claim_C7_counterexample :
    (0:Int) < 4 ∧ (4:Int) ≤ totalProfitWithdrawRoute 1 exC7Db
    ∧ max 0 ((4:Int) - userBalance 1 exC7Db) = 4
    ∧ (submitWithdrawal 1 4 ("USDT".toList) ("addr".toList) exC7Db).toOption.map
        (fun p => sumProfitsFor 1 exC7Db.progresses
          - sumProfitsFor 1 p.1.progresses) = some 1
    ∧ ((1:Int) = 4 → False) := by
  exact ⟨by decide, by decide, by decide, by decide, by decide⟩

/-- Claim C7 (amended): for a valid submission (0 < X ≤ plan profits + paid
rewards) the operation succeeds: `balance_after = balance_before + topUp - X`
with `topUp = max 0 (X - balance_before)` credited in full, the profit rows
lose `min topUp (available positive profit)` in total — the full shortfall
only when enough profit is available — with no row driven negative, and the
created withdrawal starts pending; a non-positive X or X above the total
fails with no state change. -/
theorem claim_C7 (db : Db) (uid : Nat) (u : User) (X : Int)
    (cur addr : List Char)
    (hu : findById User.id uid db.users = some u)
    (hcur : cur ≠ []) (haddr : addr ≠ []) :
    (0 < X → X ≤ totalProfitWithdrawRoute uid db →
      ∃ db' w, submitWithdrawal uid X cur addr db = Except.ok (db', w)
        ∧ userBalance uid db' = u.balance + max 0 (X - u.balance) - X
        ∧ w.status = withdrawPendingStatus ∧ w.amount = X ∧ w.userId = uid
        ∧ db'.withdrawals = db.withdrawals ++ [w]
        ∧ sumProfitsFor uid db'.progresses
            = sumProfitsFor uid db.progresses
              - min (max 0 (X - u.balance))
                  (sumPositiveProfitsFor uid db.progresses)
        ∧ List.Forall₂ rowDrainRel db.progresses db'.progresses)
    ∧ (X ≤ 0 → (submitWithdrawal uid X cur addr db).toOption = none)
    ∧ (0 < X → totalProfitWithdrawRoute uid db < X →
        submitWithdrawal uid X cur addr db
          = Except.error WithdrawError.insufficientTotal) := by
  refine ⟨?_, ?_, ?_⟩
  · intro hX hle'
    have hle : ¬ totalProfitWithdrawRoute uid db < X := not_lt.mpr hle'
    by_cases hT : 0 < max 0 (X - u.balance)
    · refine ⟨_, _, submitWithdrawal_eq_topup uid X cur addr db u hu hX hcur
        haddr hle hT, ?_, rfl, rfl, rfl, rfl, ?_, ?_⟩
      · show ((findById User.id uid (updateById User.id uid (subBalance X)
            (updateById User.id uid (addBalance (max 0 (X - u.balance)))
              db.users))).map User.balance).getD 0 = _
        rw [findById_updateById_self User.id uid (subBalance X) (fun x => rfl),
          findById_updateById_self User.id uid
            (addBalance (max 0 (X - u.balance))) (fun x => rfl), hu]
        rfl
      · show sumProfitsFor uid
            (drainProgresses uid (max 0 (X - u.balance)) db.progresses).1 = _
        rw [drainProgresses_sum,
          drainProgresses_total uid _ _ (le_max_left 0 (X - u.balance))]
      · exact drainProgresses_rows uid _ db.progresses
    · refine ⟨_, _, submitWithdrawal_eq_nodrain uid X cur addr db u hu hX hcur
        haddr hle hT, ?_, rfl, rfl, rfl, rfl, ?_, ?_⟩
      · show ((findById User.id uid (updateById User.id uid (subBalance X)
            db.users)).map User.balance).getD 0 = _
        rw [findById_updateById_self User.id uid (subBalance X) (fun x => rfl),
          hu]
        show u.balance - X = u.balance + max 0 (X - u.balance) - X
        omega
      · show sumProfitsFor uid db.progresses = _
        have hS := sumPositiveProfitsFor_nonneg uid db.progresses
        have hT0 : max 0 (X - u.balance) = 0 := by omega
        rw [hT0]
        omega
      · rw [List.forall₂_same]
        intro x _
        exact ⟨rfl, rfl, rfl, rfl, rfl, le_rfl, min_le_left _ _⟩
  · intro hX0
    unfold submitWithdrawal
    by_cases h0 : X = 0
    · rw [if_pos (Or.inl h0)]
      rfl
    · rw [if_neg (by push_neg; exact ⟨h0, hcur, haddr⟩),
        if_pos (by omega : X ≤ 0)]
      rfl
  · intro hX hlt
    unfold submitWithdrawal
    rw [if_neg (by push_neg; exact ⟨by omega, hcur, haddr⟩),
      if_neg (by omega : ¬ X ≤ 0)]
    simp only [hu]
    rw [if_pos hlt]

/-- Witness for C7 at `exC7Db`: the valid withdrawal of 4 succeeds with
balance 0 + 4 - 4 = 0, pending status, and a drain of min 4 1 = 1. -/
theorem claim_C7_witness :
    ∃ db' w, submitWithdrawal 1 4 ("USDT".toList) ("addr".toList) exC7Db
        = Except.ok (db', w)
      ∧ userBalance 1 db' = 0 + max 0 ((4:Int) - 0) - 4
      ∧ w.status = withdrawPendingStatus
      ∧ sumProfitsFor 1 db'.progresses
          = sumProfitsFor 1 exC7Db.progresses
            - min (max 0 ((4:Int) - 0)) (sumPositiveProfitsFor 1 exC7Db.progresses) := by
  obtain ⟨db', w, h1, h2, h3, _, _, _, h4, _⟩ :=
    (claim_C7 exC7Db 1 { id := 1, balance := 0, totalEarned := 0 } 4
      ("USDT".toList) ("addr".toList) (by decide) (by decide) (by decide)).1
      (by decide) (by decide)
  exact ⟨db', w, h1, h2, h3, h4⟩

/-- Claim C10: on `exC10Db` (balance 0, drainable plan profit 2, paid
rewards 9) a withdrawal of X = 8 is accepted (8 ≤ totalProfit = 11) although
balance + plan profit = 2 < 8; the top-up credit is the full shortfall
max 0 (8 - 0) = 8 while only 2 is drained from the profit rows, so counting
the withdrawal itself the user's money grew: balance' + profit' + X = 8 > 2
= balance + profit. -/
theorem claim_C10 :
    (0:Int) < 8 ∧ (8:Int) ≤ totalProfitWithdrawRoute 1 exC10Db
    ∧ userBalance 1 exC10Db + sumProfitsFor 1 exC10Db.progresses < 8
    ∧ max 0 ((8:Int) - userBalance 1 exC10Db) = 8
    ∧ (submitWithdrawal 1 8 ("USDT".toList) ("addr".toList) exC10Db).toOption.map
        (fun p => sumProfitsFor 1 exC10Db.progresses
          - sumProfitsFor 1 p.1.progresses) = some 2
    ∧ (2:Int) < max 0 ((8:Int) - userBalance 1 exC10Db)
    ∧ (submitWithdrawal 1 8 ("USDT".toList) ("addr".toList) exC10Db).toOption.map
        (fun p => userBalance 1 p.1 + sumProfitsFor 1 p.1.progresses + 8)
      = some 8
    ∧ userBalance 1 exC10Db + sumProfitsFor 1 exC10Db.progresses = 2
    ∧ (2:Int) < 8 := by
  refine ⟨by decide, by decide, by decide, by decide, by decide, by decide,
    by decide, by decide, by decide⟩

/-- Claim C8: a $250 plan yields reward exactly 10 (`PLAN_REWARDS`); a
deposit of 999 is rejected by the `allowedPlans` validation before any state
change or reward logic; a plan amount absent from the table makes the reward
transaction throw before creating any record. -/
theorem claim_C8 (db : Db) (uid rid : Nat) (u ref : User) (d : Deposit)
    (plan : UserPlanProgress) (txh cur : List Char) :
    (findById User.id uid db.users = some u → u.referredById = some rid →
      findById User.id rid db.users = some ref →
      db.rewards.find? (fun r => r.referredUserId == uid && r.referrerId == rid
        && r.status == RewardStatus.paid) = none →
      db.deposits.find? (fun d => d.userId == uid
        && d.status == DepositStatus.approved) = some d →
      latestPlanFor uid db = some plan →
      plan.planAmount = 250 →
      processReferralReward uid db = Except.ok
        ({ db with
           rewards := db.rewards ++ [newRewardFor db uid rid plan]
           nextId := db.nextId + 1 },
         some { rewardAmount := PLAN_REWARDS plan.planAmount,
                rewardId := db.nextId, referrerId := rid,
                referredUserId := uid, planAmount := plan.planAmount })
        ∧ PLAN_REWARDS plan.planAmount = 10
        ∧ (newRewardFor db uid rid plan).amount = 10
        ∧ (newRewardFor db uid rid plan).status = RewardStatus.pending)
    ∧ (txh ≠ [] → cur ≠ [] →
        db.progresses.find? (fun p => p.userId == uid) = none →
        confirmDeposit uid txh 999 cur 0 db
          = Except.error ConfirmError.invalidPlan)
    ∧ (findById User.id uid db.users = some u → u.referredById = some rid →
        findById User.id rid db.users = some ref →
        db.rewards.find? (fun r => r.referredUserId == uid && r.referrerId == rid
          && r.status == RewardStatus.paid) = none →
        db.deposits.find? (fun d => d.userId == uid
          && d.status == DepositStatus.approved) = some d →
        latestPlanFor uid db = some plan →
        PLAN_REWARDS plan.planAmount = 0 →
        processReferralReward uid db
          = Except.error ProcessError.invalidRewardAmount) := by
  refine ⟨?_, ?_, ?_⟩
  · intro hu hrid href hnopaid hdep hplan h250
    have h10 : PLAN_REWARDS plan.planAmount = 10 := by
      rw [h250]
      decide
    refine ⟨processReferralReward_ok db uid u rid ref d plan hu hrid href
      hnopaid hdep hplan (by rw [h10]; decide), h10, h10, rfl⟩
  · intro htx hcur hnoplan
    unfold confirmDeposit
    rw [if_neg (by push_neg; exact ⟨htx, by decide, hcur⟩)]
    rw [hnoplan]
    rw [if_neg (by simp)]
    rw [if_pos (by decide : ¬ (999:Int) ∈ allowedPlans)]
  · intro hu hrid href hnopaid hdep hplan h0
    unfold processReferralReward
    simp only [hu, hrid, href, hnopaid, hdep, hplan]
    rw [if_pos (le_of_eq h0)]

/-- Witness for C8: the three branches applied to `exC8Db` (plan 250 → the
run returns reward amount 10), `exC8DepositDb` (999 rejected as invalidPlan)
and `exC8BadTierDb` (plan 300 → throw, no record). -/
theorem claim_C8_witness :
    PLAN_REWARDS 250 = 10
    ∧ (processReferralReward 2 exC8Db).toOption.map
        (fun p => p.2.map ProcessResult.rewardAmount) = some (some 10)
    ∧ confirmDeposit 7 ("h1".toList) 999 ("USDT".toList) 0 exC8DepositDb
        = Except.error ConfirmError.invalidPlan
    ∧ processReferralReward 2 exC8BadTierDb
        = Except.error ProcessError.invalidRewardAmount := by
  have h1 := (claim_C8 exC8Db 2 1
    { id := 2, referredById := some 1, balance := 250, totalEarned := 250 }
    { id := 1, balance := 0, totalEarned := 0 }
    { id := 3, userId := 2, amount := 250, status := DepositStatus.approved }
    { id := 4, userId := 2, planAmount := 250 } [] []).1
    (by decide) (by decide) (by decide) (by decide) (by decide) (by decide) rfl
  have h2 := (claim_C8 exC8DepositDb 7 0
    { id := 7 } { id := 7 }
    { id := 1, userId := 7, amount := 999, status := DepositStatus.pending }
    { id := 1, userId := 7, planAmount := 999 } ("h1".toList)
    ("USDT".toList)).2.1 (by decide) (by decide) (by decide)
  have h3 := (claim_C8 exC8BadTierDb 2 1
    { id := 2, referredById := some 1, balance := 300, totalEarned := 300 }
    { id := 1, balance := 0, totalEarned := 0 }
    { id := 3, userId := 2, amount := 300, status := DepositStatus.approved }
    { id := 4, userId := 2, planAmount := 300 } [] []).2.2
    (by decide) (by decide) (by decide) (by decide) (by decide) (by decide)
    (by decide)
  refine ⟨h1.2.1, ?_, h2, h3⟩
  rw [h1.1]
  rfl

theorem generateReferralCode_valid (rnd : Nat → Nat) :
    isValidCodeFormat (generateReferralCode rnd) = true := by
  unfold isValidCodeFormat generateReferralCode
  rw [Bool.and_eq_true]
  constructor
  · simp [List.length_map, List.length_range]
  · rw [List.all_eq_true]
    intro c hc
    obtain ⟨i, _, rfl⟩ := List.mem_map.mp hc
    have h36 : rnd i % 36 < 36 := Nat.mod_lt _ (by decide)
    have hall : ∀ k, k < 36 → validCodeChar (codeAlphabet.getD k 'A') = true := by
      decide
    exact hall _ h36

theorem tryGenerateCode_attempts (uid : Nat) (rnd : Nat → Nat → Nat)
    (attempt fuel : Nat) (db : Db) :
    ∀ db' c n, tryGenerateCode uid rnd attempt fuel db = Except.ok (db', c, n) →
      n ≤ attempt + fuel ∧ isValidCodeFormat c = true := by
  induction fuel generalizing attempt with
  | zero =>
    intro db' c n h
    simp [tryGenerateCode] at h
  | succ fuel ih =>
    intro db' c n h
    unfold tryGenerateCode at h
    by_cases ht : codeTaken (generateReferralCode (rnd attempt)) db = true
    · rw [if_pos ht] at h
      have := ih (attempt + 1) db' c n h
      exact ⟨by omega, this.2⟩
    · rw [if_neg ht] at h
      simp only [Except.ok.injEq, Prod.mk.injEq] at h
      obtain ⟨_, hc, hn⟩ := h
      refine ⟨by omega, ?_⟩
      rw [← hc]
      exact generateReferralCode_valid (rnd attempt)

theorem tryGenerateCode_exhausted (uid : Nat) (rnd : Nat → Nat → Nat)
    (fuel : Nat) : ∀ (attempt : Nat) (db : Db),
    (∀ a, a < attempt + fuel → codeTaken (generateReferralCode (rnd a)) db = true) →
    tryGenerateCode uid rnd attempt fuel db = Except.error CodeError.exhausted := by
  induction fuel with
  | zero => intro attempt db _; rfl
  | succ fuel ih =>
    intro attempt db h
    unfold tryGenerateCode
    rw [if_pos (h attempt (by omega))]
    exact ih (attempt + 1) db (fun a ha => h a (by omega))

/-- Claim C9: a stored code already matching the canonical 8-character
[A-Z0-9] format is returned unchanged with zero generation attempts; any
successful run makes at most 10 attempts and returns a canonical-format
code; and when every candidate the random source can produce collides, the
operation fails with the exhaustion error instead of looping. -/
theorem claim_C9 (db : Db) (uid : Nat) (u : User) (rnd : Nat → Nat → Nat)
    (hu : findById User.id uid db.users = some u) :
    (∀ c, u.referralCode = some c → isValidCodeFormat c = true →
      getOrCreateUserReferralCode uid rnd db = Except.ok (db, c, 0))
    ∧ (∀ db' c n,
        getOrCreateUserReferralCode uid rnd db = Except.ok (db', c, n) →
        n ≤ maxCodeAttempts ∧ isValidCodeFormat c = true)
    ∧ ((u.referralCode = none
        ∨ ∃ c0, u.referralCode = some c0 ∧ isValidCodeFormat c0 = false) →
      (∀ a, a < maxCodeAttempts →
        codeTaken (generateReferralCode (rnd a)) db = true) →
      getOrCreateUserReferralCode uid rnd db
        = Except.error CodeError.exhausted) := by
  refine ⟨?_, ?_, ?_⟩
  · intro c hc hv
    unfold getOrCreateUserReferralCode
    simp only [hu, hc]
    rw [if_pos hv]
  · intro db' c n h
    unfold getOrCreateUserReferralCode at h
    simp only [hu] at h
    cases hrc : u.referralCode with
    | none =>
      simp only [hrc] at h
      exact tryGenerateCode_attempts uid rnd 0 maxCodeAttempts db db' c n h
    | some c0 =>
      simp only [hrc] at h
      by_cases hv : isValidCodeFormat c0 = true
      · rw [if_pos hv] at h
        simp only [Except.ok.injEq, Prod.mk.injEq] at h
        obtain ⟨_, hc0, hn⟩ := h
        subst hc0
        subst hn
        exact ⟨by decide, hv⟩
      · rw [if_neg hv] at h
        exact tryGenerateCode_attempts uid rnd 0 maxCodeAttempts db db' c n h
  · intro hbad hall
    unfold getOrCreateUserReferralCode
    simp only [hu]
    rcases hbad with hnone | ⟨c0, hc0, hv⟩
    · simp only [hnone]
      exact tryGenerateCode_exhausted uid rnd maxCodeAttempts 0 db
        (fun a ha => hall a (by simpa using ha))
    · simp only [hc0]
      rw [if_neg (by simp [hv])]
      exact tryGenerateCode_exhausted uid rnd maxCodeAttempts 0 db
        (fun a ha => hall a (by simpa using ha))

/-- Witness for C9: on `exC9Db` the stored canonical code "ABCD1234" is
returned unchanged with zero attempts; on `exC9CollideDb` the constant
random source only ever produces "00000000", which is taken, and the run
ends in the exhaustion error. -/
theorem claim_C9_witness :
    getOrCreateUserReferralCode 1 (fun _ _ => 0) exC9Db
      = Except.ok (exC9Db, "ABCD1234".toList, 0)
    ∧ getOrCreateUserReferralCode 1 (fun _ _ => 0) exC9CollideDb
      = Except.error CodeError.exhausted := by
  constructor
  · exact (claim_C9 exC9Db 1 { id := 1, referralCode := some ("ABCD1234".toList) }
      (fun _ _ => 0) (by decide)).1 ("ABCD1234".toList) (by decide) (by decide)
  · exact (claim_C9 exC9CollideDb 1 { id := 1 } (fun _ _ => 0) (by decide)).2.2
      (Or.inl rfl) (by decide)
